import Mathlib

/-!
Verification development for the CLV prediction pipeline
(`clv_prediction.py`): a shallow embedding of the transaction cleaner,
the observation-cutoff computation, the RFM aggregation, and the
CLV combination step, together with theorems about the properties the
specification states.

Numbers are embedded as `Int`/`Nat`/`Rat` (timestamps are whole days as
`Nat`; monetary amounts are `Rat`).  The two probabilistic model fitters
are external collaborators used only through their predict contracts, so
they appear as function parameters (`bgp` for the purchase model,
`ggp` for the monetary model).
-/

set_option autoImplicit false

/-- A raw input row as loaded from the transaction source, after header
normalization (lines 28-37 of the source).  `customer_id` is optional
because raw rows may lack it (missing values); `invoice` is the string
form of the invoice identifier (the source applies `astype(str)` before
the cancellation filter). -/
structure RawRow where
  invoice : String
  customer_id : Option Int
  timestamp : Nat
  quantity : Int
  unit_price : Rat
deriving DecidableEq

/-- A cleaned transaction line (the TransactionLine of the data model):
`customer_id` is a definite integer and `total_price` has been derived. -/
structure TransactionLine where
  invoice : String
  customer_id : Int
  timestamp : Nat
  quantity : Int
  unit_price : Rat
  total_price : Rat
deriving DecidableEq

/-- Line 44 of the source: an invoice is treated as cancelled when its
string form contains the uppercase character C anywhere
(`str.contains` with a plain one-character pattern, case sensitive,
not anchored to the start). -/
def hasCancelMarker (inv : String) : Bool :=
  inv.data.contains 'C'

/-- Line 40: drop rows whose `customer_id` is missing. -/
def dropMissingCustomerId (rows : List RawRow) : List RawRow :=
  rows.filter (fun r => r.customer_id.isSome)

/-- Line 44: drop rows whose invoice identifier contains the
cancellation marker. -/
def dropCancellations (rows : List RawRow) : List RawRow :=
  rows.filter (fun r => !(hasCancelMarker r.invoice))

/-- Line 48: keep only rows with positive quantity. -/
def dropNonPositiveQuantity (rows : List RawRow) : List RawRow :=
  rows.filter (fun r => decide (0 < r.quantity))

/-- Line 49: keep only rows with positive unit price. -/
def dropNonPositivePrice (rows : List RawRow) : List RawRow :=
  rows.filter (fun r => decide (0 < r.unit_price))

/-- Lines 41 and 52: coerce `customer_id` to a definite integer and
derive `total_price = quantity * unit_price` (timestamps are already
datetime values in the embedding, so line 55 is the identity here). -/
def toTransactionLine (r : RawRow) : TransactionLine :=
  { invoice := r.invoice
    customer_id := r.customer_id.getD 0
    timestamp := r.timestamp
    quantity := r.quantity
    unit_price := r.unit_price
    total_price := (r.quantity : Rat) * r.unit_price }

/-- The transaction cleaner, lines 40-55 of the source, steps in source
order: drop missing ids, drop cancellations, drop non-positive quantity,
drop non-positive price, then derive `total_price`. -/
def clean (rows : List RawRow) : List TransactionLine :=
  (dropNonPositivePrice
    (dropNonPositiveQuantity
      (dropCancellations
        (dropMissingCustomerId rows)))).map toTransactionLine

/-- Re-reads a cleaned line as a raw row (forgetting the derived
`total_price`), so that the cleaner can be applied a second time. -/
def asRawRow (l : TransactionLine) : RawRow :=
  { invoice := l.invoice
    customer_id := some l.customer_id
    timestamp := l.timestamp
    quantity := l.quantity
    unit_price := l.unit_price }

/-- Outcome of the data-loading step: either the raw rows, or an abort
carrying the printed message and the process exit status. -/
inductive LoadOutcome where
  | loaded (rows : List RawRow) : LoadOutcome
  | aborted (message : String) (exitCode : Nat) : LoadOutcome
deriving DecidableEq

/-- The message printed when the data file is missing (line 22). -/
def loadErrorMessage : String :=
  "Error: data file not found. Please ensure the dataset is in the same directory."

/-- Lines 18-26 of the source: try to read the source; on failure print
an error message and call the Python builtin `exit()` with no argument,
which raises `SystemExit(None)` and terminates the process with exit
status 0. -/
def loadData (source : Option (List RawRow)) : LoadOutcome :=
  match source with
  | some rows => LoadOutcome.loaded rows
  | none => LoadOutcome.aborted loadErrorMessage 0

/-- Maximum of a list of naturals (0 on the empty list, on which the
source would instead produce NaT). -/
def listMax (l : List Nat) : Nat :=
  match l with
  | [] => 0
  | a :: t => t.foldl max a

/-- Minimum of a list of naturals (0 on the empty list). -/
def listMin (l : List Nat) : Nat :=
  match l with
  | [] => 0
  | a :: t => t.foldl min a

/-- Line 64 of the source: the observation cutoff is the maximum invoice
timestamp over ALL cleaned transactions, plus one day. -/
def observationPeriodEnd (lines : List TransactionLine) : Nat :=
  listMax (lines.map (fun l => l.timestamp)) + 1

/-- One customer row of the RFM summary table. -/
structure CustomerSummary where
  customer_id : Int
  frequency : Nat
  recency : Nat
  T : Nat
  monetary_value : Rat
deriving DecidableEq

/-- Modelled from the spec: the transaction lines of one customer.  The
RFM aggregation itself (`summary_data_from_transaction_data`, called at
lines 72-78) lives in the external lifetimes library, so the aggregator
is modelled from section 4.2 of the specification: group lines by
`customer_id`. -/
def linesOf (c : Int) (lines : List TransactionLine) : List TransactionLine :=
  lines.filter (fun l => decide (l.customer_id = c))

/-- Modelled from the spec: the timestamps of one customer. -/
def custTimestamps (c : Int) (lines : List TransactionLine) : List Nat :=
  (linesOf c lines).map (fun l => l.timestamp)

/-- Modelled from the spec: the earliest purchase timestamp of a
customer. -/
def firstPurchase (c : Int) (lines : List TransactionLine) : Nat :=
  listMin (custTimestamps c lines)

/-- Modelled from the spec: the latest purchase timestamp of a
customer. -/
def lastPurchase (c : Int) (lines : List TransactionLine) : Nat :=
  listMax (custTimestamps c lines)

/-- Modelled from the spec: the distinct purchase occasions of a
customer (one occasion per distinct calendar day, the single
consistently-applied definition chosen here). -/
def occasionsOf (c : Int) (lines : List TransactionLine) : List Nat :=
  (custTimestamps c lines).dedup

/-- Modelled from the spec: frequency is the number of distinct purchase
occasions strictly after the first one. -/
def frequencyOf (c : Int) (lines : List TransactionLine) : Nat :=
  (occasionsOf c lines).length - 1

/-- Modelled from the spec: total spend of a customer on one day. -/
def daySpend (c : Int) (lines : List TransactionLine) (d : Nat) : Rat :=
  (((linesOf c lines).filter (fun l => decide (l.timestamp = d))).map
    (fun l => l.total_price)).sum

/-- Modelled from the spec: monetary value is the mean spend over the
repeat occasions only, and 0 by convention when frequency is 0. -/
def monetaryValueOf (c : Int) (lines : List TransactionLine) : Rat :=
  if frequencyOf c lines = 0 then 0
  else (((occasionsOf c lines).filter
          (fun d => decide (firstPurchase c lines < d))).map
          (daySpend c lines)).sum / (frequencyOf c lines : Rat)

/-- Modelled from the spec: the summary record of one customer, given
the explicit observation cutoff. -/
def summaryOf (cutoff : Nat) (lines : List TransactionLine) (c : Int) :
    CustomerSummary :=
  { customer_id := c
    frequency := frequencyOf c lines
    recency := lastPurchase c lines - firstPurchase c lines
    T := cutoff - firstPurchase c lines
    monetary_value := monetaryValueOf c lines }

/-- The distinct customer identifiers surviving cleaning. -/
def customerIds (lines : List TransactionLine) : List Int :=
  (lines.map (fun l => l.customer_id)).dedup

/-- Modelled from the spec: the RFM aggregation, one summary per
distinct customer, all measured against the same explicit cutoff. -/
def rfmSummary (lines : List TransactionLine) (cutoff : Nat) :
    List CustomerSummary :=
  (customerIds lines).map (summaryOf cutoff lines)

/-- A final prediction-table row: the summary enriched with the three
predicted fields (lines 122, 148-160 of the source). -/
structure PredictionRecord where
  customer_id : Int
  frequency : Nat
  recency : Nat
  T : Nat
  monetary_value : Rat
  predicted_purchases : Rat
  predicted_monetary_value : Rat
  predicted_clv : Rat
deriving DecidableEq

/-- Line 86 of the source: the repeat-customer subset, the summary rows
with frequency strictly positive, in table order. -/
def repeatSubset (summ : List CustomerSummary) : List CustomerSummary :=
  summ.filter (fun s => decide (0 < s.frequency))

/-- Lines 148-155 of the source: `predicted_monetary_value` is
initialized to 0 for every row, then the array
`merged_monetary.values` is assigned POSITIONALLY to the rows selected
by the boolean mask `frequency > 0` (the `.values` call strips the
index, so alignment is by position among mask-true rows, not by
customer identity).  Returns `none` when the value count does not match
the mask-true row count, where pandas raises. -/
def assignMonetary :
    List CustomerSummary → List Rat → Option (List (CustomerSummary × Rat))
  | [], [] => some []
  | [], _ :: _ => none
  | s :: rest, vals =>
    if 0 < s.frequency then
      match vals with
      | [] => none
      | v :: vt => (assignMonetary rest vt).map (fun tail => (s, v) :: tail)
    else
      (assignMonetary rest vals).map (fun tail => (s, (0 : Rat)) :: tail)

/-- Lines 122 and 160: attach the predicted purchase count `bgp` of a
summary row and a given predicted monetary value, and derive
`predicted_clv` as their product. -/
def toPredictionRecord (bgp : Nat → Nat → Nat → Rat)
    (p : CustomerSummary × Rat) : PredictionRecord :=
  { customer_id := p.1.customer_id
    frequency := p.1.frequency
    recency := p.1.recency
    T := p.1.T
    monetary_value := p.1.monetary_value
    predicted_purchases := bgp p.1.frequency p.1.recency p.1.T
    predicted_monetary_value := p.2
    predicted_clv := bgp p.1.frequency p.1.recency p.1.T * p.2 }

/-- Lines 148-160 of the source: the CLV combination step.  `subset` is
the list of summary rows handed to the monetary model for prediction
(in the source, `rfm_df_repeat_customers`); `ggp` is the monetary
model's conditional expected average profit on a
(frequency, monetary_value) pair; `bgp` is the purchase model's
prediction on a (frequency, recency, T) triple. -/
def combineCLV (summ : List CustomerSummary) (subset : List CustomerSummary)
    (bgp : Nat → Nat → Nat → Rat) (ggp : Nat → Rat → Rat) :
    Option (List PredictionRecord) :=
  (assignMonetary summ
      (subset.map (fun s => ggp s.frequency s.monetary_value))).map
    (fun pairs => pairs.map (toPredictionRecord bgp))

/-- The identity-aligned record of one summary row: what the combination
step produces for a row when the subset is passed in table order. -/
def expectedRecord (bgp : Nat → Nat → Nat → Rat) (ggp : Nat → Rat → Rat)
    (s : CustomerSummary) : PredictionRecord :=
  toPredictionRecord bgp
    (s, if 0 < s.frequency then ggp s.frequency s.monetary_value else 0)

/-- Message for the empty-cleaned-set abort.  Modelled from the spec:
with an empty cleaned set the maximum timestamp is NaT and the model
fit at line 110 receives empty series; the behaviour of those calls is
inside pandas and the lifetimes library, and per sections 7 and 8 of the
specification it is a fatal FitError / empty-result condition. -/
def emptyDataMessage : String :=
  "FitError: cannot fit the models on an empty cleaned transaction set."

/-- Message for a length mismatch in the positional monetary
assignment (pandas raises a ValueError there). -/
def mismatchMessage : String :=
  "ValueError: length of values does not match length of mask-true rows."

/-- The whole pipeline: load, clean, abort on an empty cleaned set,
aggregate against the global cutoff, combine.  An `Except.ok` result is
what gets written to the output CSV (line 171); every `Except.error`
aborts before the write. -/
def runPipeline (source : Option (List RawRow))
    (bgp : Nat → Nat → Nat → Rat) (ggp : Nat → Rat → Rat) :
    Except String (List PredictionRecord) :=
  match loadData source with
  | LoadOutcome.aborted msg _ => Except.error msg
  | LoadOutcome.loaded raw =>
    let lines := clean raw
    if lines.isEmpty then Except.error emptyDataMessage
    else
      let summ := rfmSummary lines (observationPeriodEnd lines)
      (combineCLV summ (repeatSubset summ) bgp ggp).elim
        (Except.error mismatchMessage) Except.ok

/-- Concrete cleaned transactions used to instantiate the theorems: the
worked scenario of the specification (customer 1 buys on day 0 and
day 10, customer 2 buys once on day 0). -/
def linesW : List TransactionLine :=
  [ ⟨"536365", 1, 0, 2, 5, 10⟩,
    ⟨"536366", 1, 10, 1, 20, 20⟩,
    ⟨"536367", 2, 0, 1, 100, 100⟩ ]

/-- The same scenario as raw input rows (cleaning keeps all three). -/
def rawW : List RawRow :=
  [ ⟨"536365", some 1, 0, 2, 5⟩,
    ⟨"536366", some 1, 10, 1, 20⟩,
    ⟨"536367", some 2, 0, 1, 100⟩ ]

/-- A raw input whose only row has quantity 0, so cleaning empties it. -/
def rawEmptyW : List RawRow :=
  [ ⟨"536370", some 3, 0, 0, 5⟩ ]

/-- A concrete purchase-model prediction used to instantiate the
theorems. -/
def bgpW : Nat → Nat → Nat → Rat := fun f _ _ => (f : Rat) + 1

/-- A concrete monetary-model prediction used to instantiate the
theorems. -/
def ggpW : Nat → Rat → Rat := fun _ m => m

/-- Summary row of a repeat customer, used in the alignment analysis. -/
def sA : CustomerSummary := ⟨1, 1, 5, 10, 10⟩

/-- Summary row of a second repeat customer with a different monetary
value, used in the alignment analysis. -/
def sB : CustomerSummary := ⟨2, 2, 6, 10, 20⟩

/-- A two-customer summary table in which both customers are repeat
customers. -/
def summX : List CustomerSummary := [sA, sB]

/-- A constant purchase-model prediction for the alignment analysis. -/
def bgpX : Nat → Nat → Nat → Rat := fun _ _ _ => 1

/-- A monetary model that returns the observed monetary value itself,
so that its output identifies which customer a value belongs to. -/
def ggpX : Nat → Rat → Rat := fun _ m => m

/-- A raw input with a single one-transaction customer, used to
instantiate the zero-frequency theorems on a full pipeline run. -/
def rawSingleW : List RawRow :=
  [ ⟨"536380", some 3, 0, 1, 7⟩ ]

/-- A purchase model that predicts 0 everywhere, used to instantiate the
zero-frequency theorems. -/
def bgpZ : Nat → Nat → Nat → Rat := fun _ _ _ => 0

/-! ### Helper lemmas about `listMin` and `listMax` -/

theorem le_foldl_max_init (t : List Nat) : ∀ b : Nat, b ≤ t.foldl max b := by
  induction t with
  | nil => intro b; exact Nat.le_refl b
  | cons c t ih =>
    intro b
    exact le_trans (Nat.le_max_left b c) (ih (max b c))

theorem le_foldl_max_mem {x : Nat} (t : List Nat) :
    ∀ b : Nat, x ∈ t → x ≤ t.foldl max b := by
  induction t with
  | nil => intro b hx; cases hx
  | cons c t ih =>
    intro b hx
    rcases List.mem_cons.mp hx with rfl | h
    · exact le_trans (Nat.le_max_right b x) (le_foldl_max_init t (max b x))
    · exact ih (max b c) h

theorem le_listMax {x : Nat} {l : List Nat} (hx : x ∈ l) : x ≤ listMax l := by
  cases l with
  | nil => cases hx
  | cons a t =>
    rcases List.mem_cons.mp hx with rfl | h
    · exact le_foldl_max_init t x
    · exact le_foldl_max_mem t a h

theorem foldl_max_mem (t : List Nat) :
    ∀ b : Nat, t.foldl max b = b ∨ t.foldl max b ∈ t := by
  induction t with
  | nil => intro b; exact Or.inl rfl
  | cons c t ih =>
    intro b
    rcases ih (max b c) with h | h
    · rcases max_choice b c with hbc | hbc
      · exact Or.inl (by show t.foldl max (max b c) = b; rw [h, hbc])
      · refine Or.inr ?_
        have : t.foldl max (max b c) = c := by rw [h, hbc]
        rw [show (c :: t).foldl max b = t.foldl max (max b c) from rfl] at *
        rw [this]
        exact List.mem_cons_self c t
    · exact Or.inr (List.mem_cons_of_mem c h)

theorem listMax_mem {l : List Nat} (h : l ≠ []) : listMax l ∈ l := by
  cases l with
  | nil => exact absurd rfl h
  | cons a t =>
    rcases foldl_max_mem t a with h1 | h1
    · show t.foldl max a ∈ a :: t
      rw [h1]
      exact List.mem_cons_self a t
    · exact List.mem_cons_of_mem a h1

theorem foldl_min_le_init (t : List Nat) : ∀ b : Nat, t.foldl min b ≤ b := by
  induction t with
  | nil => intro b; exact Nat.le_refl b
  | cons c t ih =>
    intro b
    exact le_trans (ih (min b c)) (Nat.min_le_left b c)

theorem foldl_min_mem (t : List Nat) :
    ∀ b : Nat, t.foldl min b = b ∨ t.foldl min b ∈ t := by
  induction t with
  | nil => intro b; exact Or.inl rfl
  | cons c t ih =>
    intro b
    rcases ih (min b c) with h | h
    · rcases min_choice b c with hbc | hbc
      · exact Or.inl (by show t.foldl min (min b c) = b; rw [h, hbc])
      · refine Or.inr ?_
        have : t.foldl min (min b c) = c := by rw [h, hbc]
        rw [show (c :: t).foldl min b = t.foldl min (min b c) from rfl] at *
        rw [this]
        exact List.mem_cons_self c t
    · exact Or.inr (List.mem_cons_of_mem c h)

theorem listMin_mem {l : List Nat} (h : l ≠ []) : listMin l ∈ l := by
  cases l with
  | nil => exact absurd rfl h
  | cons a t =>
    rcases foldl_min_mem t a with h1 | h1
    · show t.foldl min a ∈ a :: t
      rw [h1]
      exact List.mem_cons_self a t
    · exact List.mem_cons_of_mem a h1

/-! ### Helper lemmas about the aggregator -/

theorem mem_custTimestamps_map {c : Int} {x : Nat} {lines : List TransactionLine}
    (hx : x ∈ custTimestamps c lines) :
    x ∈ lines.map (fun l => l.timestamp) := by
  rcases List.mem_map.mp hx with ⟨l, hl, rfl⟩
  exact List.mem_map_of_mem _ (List.mem_of_mem_filter hl)

theorem custTimestamps_ne_nil {c : Int} {lines : List TransactionLine}
    (hc : c ∈ customerIds lines) : custTimestamps c lines ≠ [] := by
  rw [customerIds, List.mem_dedup] at hc
  rcases List.mem_map.mp hc with ⟨l, hl, rfl⟩
  have hmem : l ∈ linesOf l.customer_id lines :=
    List.mem_filter.mpr ⟨hl, by simp⟩
  have hts : l.timestamp ∈ custTimestamps l.customer_id lines :=
    List.mem_map_of_mem _ hmem
  intro h
  rw [h] at hts
  cases hts

theorem firstPurchase_le_globalMax {c : Int} {lines : List TransactionLine}
    (hc : c ∈ customerIds lines) :
    firstPurchase c lines ≤ listMax (lines.map (fun l => l.timestamp)) :=
  le_listMax (mem_custTimestamps_map (listMin_mem (custTimestamps_ne_nil hc)))

theorem lastPurchase_le_cutoff {c : Int} {lines : List TransactionLine}
    (hc : c ∈ customerIds lines) :
    lastPurchase c lines ≤ observationPeriodEnd lines :=
  le_trans
    (le_listMax (mem_custTimestamps_map (listMax_mem (custTimestamps_ne_nil hc))))
    (Nat.le_succ _)

/-! ### Claim theorems about the cutoff and the aggregation -/

/-- Claim C1: for every run of the pipeline, the observation cutoff used
by the RFM aggregation equals the maximum invoice timestamp over all
cleaned transaction rows plus exactly one day, and this single cutoff is
global: every summary row is measured against the same value, as
witnessed by T plus the first-purchase timestamp reconstituting one and
the same cutoff for every customer. -/
theorem observation_cutoff_global (lines : List TransactionLine)
    (s : CustomerSummary)
    (hs : s ∈ rfmSummary lines (observationPeriodEnd lines)) :
    observationPeriodEnd lines = listMax (lines.map (fun l => l.timestamp)) + 1 ∧
    s.T + firstPurchase s.customer_id lines = observationPeriodEnd lines := by
  refine ⟨rfl, ?_⟩
  rcases List.mem_map.mp hs with ⟨c, hc, rfl⟩
  show observationPeriodEnd lines - firstPurchase c lines + firstPurchase c lines
      = observationPeriodEnd lines
  exact Nat.sub_add_cancel
    (le_trans (firstPurchase_le_globalMax hc) (Nat.le_succ _))

theorem observation_cutoff_global_witness :
    observationPeriodEnd linesW = listMax (linesW.map (fun l => l.timestamp)) + 1 ∧
    (⟨2, 0, 0, 11, 0⟩ : CustomerSummary).T +
        firstPurchase (⟨2, 0, 0, 11, 0⟩ : CustomerSummary).customer_id linesW
      = observationPeriodEnd linesW :=
  observation_cutoff_global linesW ⟨2, 0, 0, 11, 0⟩ (by decide)

/-- Claim C5: for every customer summary produced by the RFM
aggregation, recency is at most the age T. -/
theorem recency_le_age (lines : List TransactionLine) (s : CustomerSummary)
    (hs : s ∈ rfmSummary lines (observationPeriodEnd lines)) :
    s.recency ≤ s.T := by
  rcases List.mem_map.mp hs with ⟨c, hc, rfl⟩
  show lastPurchase c lines - firstPurchase c lines
      ≤ observationPeriodEnd lines - firstPurchase c lines
  exact Nat.sub_le_sub_right (lastPurchase_le_cutoff hc) _

theorem recency_le_age_witness :
    (⟨2, 0, 0, 11, 0⟩ : CustomerSummary).recency
      ≤ (⟨2, 0, 0, 11, 0⟩ : CustomerSummary).T :=
  recency_le_age linesW ⟨2, 0, 0, 11, 0⟩ (by decide)

/-- Claim C6: a customer whose cleaned transactions form exactly one
purchase occasion gets frequency 0, recency 0, and age equal to the
cutoff minus that single timestamp. -/
theorem single_occasion_summary (cutoff : Nat) (lines : List TransactionLine)
    (c : Int) (t : Nat) (h : occasionsOf c lines = [t]) :
    (summaryOf cutoff lines c).frequency = 0 ∧
    (summaryOf cutoff lines c).recency = 0 ∧
    (summaryOf cutoff lines c).T = cutoff - t := by
  have hne : custTimestamps c lines ≠ [] := by
    intro h0
    rw [occasionsOf, h0, List.dedup_nil] at h
    cases h
  have hall : ∀ x ∈ custTimestamps c lines, x = t := by
    intro x hx
    have hxo : x ∈ occasionsOf c lines := by
      rw [occasionsOf, List.mem_dedup]; exact hx
    rw [h] at hxo
    exact List.mem_singleton.mp hxo
  have hmin : firstPurchase c lines = t := hall _ (listMin_mem hne)
  have hmax : lastPurchase c lines = t := hall _ (listMax_mem hne)
  refine ⟨?_, ?_, ?_⟩
  · show frequencyOf c lines = 0
    rw [frequencyOf, h]
    simp
  · show lastPurchase c lines - firstPurchase c lines = 0
    rw [hmin, hmax, Nat.sub_self]
  · show cutoff - firstPurchase c lines = cutoff - t
    rw [hmin]

theorem single_occasion_summary_witness :
    (summaryOf 11 linesW 2).frequency = 0 ∧
    (summaryOf 11 linesW 2).recency = 0 ∧
    (summaryOf 11 linesW 2).T = 11 - 0 :=
  single_occasion_summary 11 linesW 2 0 (by decide)

/-! ### Claim theorems about the cleaner -/

theorem mem_clean {rows : List RawRow} {l : TransactionLine} (h : l ∈ clean rows) :
    0 < l.quantity ∧ 0 < l.unit_price ∧ hasCancelMarker l.invoice = false ∧
    l.total_price = (l.quantity : Rat) * l.unit_price ∧
    ∃ r ∈ rows, r.customer_id = some l.customer_id := by
  rw [clean] at h
  rcases List.mem_map.mp h with ⟨r, hr, rfl⟩
  rw [dropNonPositivePrice, List.mem_filter] at hr
  obtain ⟨hr, hp⟩ := hr
  rw [dropNonPositiveQuantity, List.mem_filter] at hr
  obtain ⟨hr, hq⟩ := hr
  rw [dropCancellations, List.mem_filter] at hr
  obtain ⟨hr, hcan⟩ := hr
  rw [dropMissingCustomerId, List.mem_filter] at hr
  obtain ⟨hr, hsome⟩ := hr
  refine ⟨of_decide_eq_true hq, of_decide_eq_true hp, ?_, rfl, ?_⟩
  · simpa using hcan
  · rcases Option.isSome_iff_exists.mp hsome with ⟨c, hc⟩
    refine ⟨r, hr, ?_⟩
    show r.customer_id = some (r.customer_id.getD 0)
    rw [hc]
    rfl

/-- Claim C4: every row of the cleaned transaction set satisfies the
TransactionLine invariant: the customer id is present (it stems from a
raw row whose id was present; it is integer-valued by construction),
quantity and unit price are positive, the invoice has no cancellation
marker, and the derived total price equals quantity times unit price. -/
theorem cleaned_row_invariant (rows : List RawRow) (l : TransactionLine)
    (h : l ∈ clean rows) :
    (∃ r ∈ rows, r.customer_id = some l.customer_id) ∧
    0 < l.quantity ∧ 0 < l.unit_price ∧
    hasCancelMarker l.invoice = false ∧
    l.total_price = (l.quantity : Rat) * l.unit_price := by
  obtain ⟨h1, h2, h3, h4, h5⟩ := mem_clean h
  exact ⟨h5, h1, h2, h3, h4⟩

theorem cleaned_row_invariant_witness :
    (∃ r ∈ rawW, r.customer_id = some
        (⟨"536365", 1, 0, 2, 5, 10⟩ : TransactionLine).customer_id) ∧
    0 < (⟨"536365", 1, 0, 2, 5, 10⟩ : TransactionLine).quantity ∧
    0 < (⟨"536365", 1, 0, 2, 5, 10⟩ : TransactionLine).unit_price ∧
    hasCancelMarker (⟨"536365", 1, 0, 2, 5, 10⟩ : TransactionLine).invoice = false ∧
    (⟨"536365", 1, 0, 2, 5, 10⟩ : TransactionLine).total_price =
      ((⟨"536365", 1, 0, 2, 5, 10⟩ : TransactionLine).quantity : Rat) *
        (⟨"536365", 1, 0, 2, 5, 10⟩ : TransactionLine).unit_price :=
  cleaned_row_invariant rawW ⟨"536365", 1, 0, 2, 5, 10⟩ (by
    simp +decide [clean, rawW, dropMissingCustomerId, dropCancellations,
      dropNonPositiveQuantity, dropNonPositivePrice, toTransactionLine,
      hasCancelMarker]
    norm_num)

theorem clean_of_invariant (ls : List TransactionLine)
    (hinv : ∀ l ∈ ls, 0 < l.quantity ∧ 0 < l.unit_price ∧
      hasCancelMarker l.invoice = false ∧
      l.total_price = (l.quantity : Rat) * l.unit_price) :
    clean (ls.map asRawRow) = ls := by
  have h1 : dropMissingCustomerId (ls.map asRawRow) = ls.map asRawRow := by
    rw [dropMissingCustomerId, List.filter_eq_self]
    intro r hr
    rcases List.mem_map.mp hr with ⟨l, _, rfl⟩
    rfl
  have h2 : dropCancellations (ls.map asRawRow) = ls.map asRawRow := by
    rw [dropCancellations, List.filter_eq_self]
    intro r hr
    rcases List.mem_map.mp hr with ⟨l, hl, rfl⟩
    have hc := (hinv l hl).2.2.1
    show (!(hasCancelMarker l.invoice)) = true
    rw [hc]
    rfl
  have h3 : dropNonPositiveQuantity (ls.map asRawRow) = ls.map asRawRow := by
    rw [dropNonPositiveQuantity, List.filter_eq_self]
    intro r hr
    rcases List.mem_map.mp hr with ⟨l, hl, rfl⟩
    exact decide_eq_true (hinv l hl).1
  have h4 : dropNonPositivePrice (ls.map asRawRow) = ls.map asRawRow := by
    rw [dropNonPositivePrice, List.filter_eq_self]
    intro r hr
    rcases List.mem_map.mp hr with ⟨l, hl, rfl⟩
    exact decide_eq_true (hinv l hl).2.1
  have h5 : ∀ l ∈ ls, toTransactionLine (asRawRow l) = l := by
    intro l hl
    have ht := (hinv l hl).2.2.2
    obtain ⟨inv, cid, ts, q, up, tp⟩ := l
    simp only [toTransactionLine, asRawRow, Option.getD] at ht ⊢
    simp [TransactionLine.mk.injEq, ht]
  rw [clean, h1, h2, h3, h4, List.map_map]
  calc ls.map (toTransactionLine ∘ asRawRow)
      = ls.map id := List.map_congr_left (fun l hl => h5 l hl)
    _ = ls := List.map_id ls

/-- Claim C9: the cleaner is idempotent: re-presenting already cleaned
rows to the cleaning steps drops no further row and changes no field
value. -/
theorem clean_idempotent (rows : List RawRow) :
    clean ((clean rows).map asRawRow) = clean rows :=
  clean_of_invariant (clean rows) (fun _ hl =>
    ⟨(mem_clean hl).1, (mem_clean hl).2.1, (mem_clean hl).2.2.1,
      (mem_clean hl).2.2.2.1⟩)

/-- Claim C10: a raw row with customer id present survives the
cancellation filter exactly when the string form of its invoice does not
contain the uppercase character C at any position (the match is not
anchored to a leading position and is case sensitive). -/
theorem cancellation_filter_iff (rows : List RawRow) (r : RawRow)
    (hr : r ∈ rows) :
    r ∈ dropCancellations rows ↔ r.invoice.data.contains 'C' = false := by
  rw [dropCancellations, List.mem_filter]
  simp [hasCancelMarker, hr]

theorem cancellation_filter_iff_witness :
    (⟨"54C321", some 7, 3, 1, 2⟩ : RawRow) ∉
        dropCancellations
          [⟨"54C321", some 7, 3, 1, 2⟩, ⟨"abc123c", some 8, 4, 1, 2⟩] ∧
    (⟨"abc123c", some 8, 4, 1, 2⟩ : RawRow) ∈
        dropCancellations
          [⟨"54C321", some 7, 3, 1, 2⟩, ⟨"abc123c", some 8, 4, 1, 2⟩] := by
  constructor
  · intro h
    exact absurd
      ((cancellation_filter_iff
          [⟨"54C321", some 7, 3, 1, 2⟩, ⟨"abc123c", some 8, 4, 1, 2⟩]
          ⟨"54C321", some 7, 3, 1, 2⟩ (by decide)).mp h)
      (by decide)
  · exact (cancellation_filter_iff
        [⟨"54C321", some 7, 3, 1, 2⟩, ⟨"abc123c", some 8, 4, 1, 2⟩]
        ⟨"abc123c", some 8, 4, 1, 2⟩ (by decide)).mpr (by decide)

/-! ### Claim theorems about the load step -/

/-- Claim C7 is refuted as stated: on a missing source the program does
print a message and stop before any computation, but the Python builtin
used is a bare call that terminates the process with exit status 0, so
the exit code is NOT non-zero. -/
theorem load_failure_counterexample :
    ¬ ∃ msg code, loadData none = LoadOutcome.aborted msg code ∧ code ≠ 0 := by
  rintro ⟨msg, code, h, hne⟩
  injection h with h1 h2
  exact hne h2.symm

/-- Claim C7 (amended): if the transaction source cannot be loaded, the
program emits a clear, user-visible error message and terminates before
performing any computation, never falling back to a silent empty result;
however the exit status is 0 (a bare call of the builtin), not non-zero
as the original claim states. -/
theorem load_failure_aborts :
    loadData none = LoadOutcome.aborted loadErrorMessage 0 ∧
    loadErrorMessage ≠ "" ∧
    (∀ rows, loadData none ≠ LoadOutcome.loaded rows) ∧
    (∀ bgp ggp, runPipeline none bgp ggp = Except.error loadErrorMessage) := by
  refine ⟨rfl, by decide, ?_, ?_⟩
  · exact fun rows h => LoadOutcome.noConfusion h
  · exact fun bgp ggp => rfl

/-! ### Claim theorems about the combination step -/

theorem assignMonetary_inorder (summ : List CustomerSummary)
    (g : CustomerSummary → Rat) :
    assignMonetary summ
        ((summ.filter (fun s => decide (0 < s.frequency))).map g)
      = some (summ.map (fun s => (s, if 0 < s.frequency then g s else 0))) := by
  induction summ with
  | nil => rfl
  | cons s rest ih =>
    by_cases hs : 0 < s.frequency
    · have hf : (s :: rest).filter (fun s => decide (0 < s.frequency))
          = s :: rest.filter (fun s => decide (0 < s.frequency)) := by
        simp [List.filter_cons, hs]
      rw [hf, List.map_cons]
      simp only [assignMonetary, if_pos hs]
      rw [ih]
      simp [hs]
    · have hf : (s :: rest).filter (fun s => decide (0 < s.frequency))
          = rest.filter (fun s => decide (0 < s.frequency)) := by
        simp [List.filter_cons, hs]
      rw [hf]
      simp only [assignMonetary, if_neg hs]
      rw [ih]
      simp [hs]

theorem combineCLV_inorder (summ : List CustomerSummary)
    (bgp : Nat → Nat → Nat → Rat) (ggp : Nat → Rat → Rat) :
    combineCLV summ (repeatSubset summ) bgp ggp
      = some (summ.map (expectedRecord bgp ggp)) := by
  rw [combineCLV, repeatSubset, assignMonetary_inorder]
  rw [Option.map_some', List.map_map]
  rfl

/-- Claim C2: in the final prediction table, a customer with frequency 0
has predicted monetary value exactly 0 and predicted CLV exactly 0 (the
fields are total rational values in this embedding, so they are defined,
never missing). -/
theorem zero_frequency_zero_clv (raw : List RawRow)
    (bgp : Nat → Nat → Nat → Rat) (ggp : Nat → Rat → Rat)
    (recs : List PredictionRecord)
    (h : runPipeline (some raw) bgp ggp = Except.ok recs)
    (r : PredictionRecord) (hr : r ∈ recs) (hf : r.frequency = 0) :
    r.predicted_monetary_value = 0 ∧ r.predicted_clv = 0 := by
  simp only [runPipeline, loadData] at h
  by_cases he : (clean raw).isEmpty = true
  · rw [if_pos he] at h
    exact Except.noConfusion h
  · rw [if_neg he, combineCLV_inorder] at h
    simp only [Option.elim] at h
    injection h with h
    subst h
    rcases List.mem_map.mp hr with ⟨s, hsm, rfl⟩
    have hf' : s.frequency = 0 := hf
    have hnot : ¬ 0 < s.frequency := by rw [hf']; exact lt_irrefl 0
    constructor
    · show (if 0 < s.frequency then ggp s.frequency s.monetary_value else 0) = 0
      rw [if_neg hnot]
    · show bgp s.frequency s.recency s.T *
          (if 0 < s.frequency then ggp s.frequency s.monetary_value else 0) = 0
      rw [if_neg hnot, mul_zero]

theorem zero_frequency_zero_clv_witness :
    (expectedRecord bgpZ ggpW
        (summaryOf (observationPeriodEnd (clean rawSingleW))
          (clean rawSingleW) 3)).predicted_monetary_value = 0 ∧
    (expectedRecord bgpZ ggpW
        (summaryOf (observationPeriodEnd (clean rawSingleW))
          (clean rawSingleW) 3)).predicted_clv = 0 :=
  zero_frequency_zero_clv rawSingleW bgpZ ggpW
    [expectedRecord bgpZ ggpW
      (summaryOf (observationPeriodEnd (clean rawSingleW)) (clean rawSingleW) 3)]
    rfl
    (expectedRecord bgpZ ggpW
      (summaryOf (observationPeriodEnd (clean rawSingleW)) (clean rawSingleW) 3))
    (List.mem_cons_self _ _) rfl

/-- Claim C3 is refuted as stated: the source assigns the monetary-model
output to the mask-true rows POSITIONALLY (the raw array of values is
written into the frequency-positive rows in order), so when the
repeat-customer subset is passed to predict in reversed order, customer
1 (whose own monetary value is 10, and for which the model returns 10)
receives the prediction 20 that belongs to customer 2. -/
theorem monetary_positional_misalignment :
    ∃ recs r,
      combineCLV summX ((repeatSubset summX).reverse) bgpX ggpX = some recs ∧
      recs.head? = some r ∧
      r.customer_id = sA.customer_id ∧
      r.frequency = sA.frequency ∧
      r.monetary_value = sA.monetary_value ∧
      0 < r.frequency ∧
      r.predicted_monetary_value ≠ ggpX r.frequency r.monetary_value := by
  refine ⟨_, _, rfl, rfl, rfl, rfl, rfl, by decide, by decide⟩

/-- Claim C3 (amended): with the repeat-customer subset passed to the
monetary model exactly as the source produces it (the frequency-positive
rows of the summary table, in table order, with no reordering in
between), every frequency-positive customer of the combined table gets
precisely the monetary-model value for its own
(frequency, monetary_value) pair, and the combined table has one row per
summary row (no row-count mismatch). -/
theorem monetary_alignment_inorder (summ : List CustomerSummary)
    (bgp : Nat → Nat → Nat → Rat) (ggp : Nat → Rat → Rat)
    (recs : List PredictionRecord)
    (h : combineCLV summ (repeatSubset summ) bgp ggp = some recs)
    (r : PredictionRecord) (hr : r ∈ recs) (hf : 0 < r.frequency) :
    r.predicted_monetary_value = ggp r.frequency r.monetary_value ∧
    recs.length = summ.length := by
  rw [combineCLV_inorder] at h
  injection h with h
  subst h
  refine ⟨?_, List.length_map summ _⟩
  rcases List.mem_map.mp hr with ⟨s, hsm, rfl⟩
  have hf' : 0 < s.frequency := hf
  show (if 0 < s.frequency then ggp s.frequency s.monetary_value else 0)
      = ggp s.frequency s.monetary_value
  rw [if_pos hf']

theorem monetary_alignment_inorder_witness :
    (expectedRecord bgpX ggpX sA).predicted_monetary_value =
        ggpX (expectedRecord bgpX ggpX sA).frequency
          (expectedRecord bgpX ggpX sA).monetary_value ∧
    (summX.map (expectedRecord bgpX ggpX)).length = summX.length :=
  monetary_alignment_inorder summX bgpX ggpX
    (summX.map (expectedRecord bgpX ggpX))
    (combineCLV_inorder summX bgpX ggpX)
    (expectedRecord bgpX ggpX sA)
    (List.mem_map_of_mem _ (by decide)) (by decide)

/-- Claim C8: when cleaning filters out every raw row, the pipeline
stops with the modelled fatal empty-data error and never reaches the
output write (no silently written empty CLV file). -/
theorem empty_clean_aborts (raw : List RawRow)
    (bgp : Nat → Nat → Nat → Rat) (ggp : Nat → Rat → Rat)
    (h : clean raw = []) :
    runPipeline (some raw) bgp ggp = Except.error emptyDataMessage ∧
    ∀ recs, runPipeline (some raw) bgp ggp ≠ Except.ok recs := by
  have hrun : runPipeline (some raw) bgp ggp = Except.error emptyDataMessage := by
    simp [runPipeline, loadData, h]
  refine ⟨hrun, fun recs hok => ?_⟩
  rw [hrun] at hok
  exact Except.noConfusion hok

theorem empty_clean_aborts_witness :
    runPipeline (some rawEmptyW) bgpW ggpW = Except.error emptyDataMessage :=
  (empty_clean_aborts rawEmptyW bgpW ggpW (by decide)).1
